import Mathlib

/-!
A verification development for a lease-extraction pipeline written in
TypeScript.  The embedding models runtime JavaScript values as the inductive
`JVal`, numbers as exact rationals (the idealisation of IEEE doubles; `none`
in `Option ℚ` plays the role of a non-finite result), and each pipeline
function as a Lean function translated clause by clause from the source:

* `parseExtractionResponse` (stage 3): fenced-block stripping, strict JSON
  parsing, the regex salvage scan, and schema-completion with placeholders;
* the five validation checks and the two auto-correctors (stage 4);
* `isAmendment` and the `runPipeline` orchestrator, with the external
  renderer / model calls supplied as an oracle structure and the invoked
  stages recorded as a trace.
-/

namespace NolaLease

/-- A runtime JavaScript value as it flows through the pipeline:
`jundefined` is JavaScript `undefined`, the rest mirror JSON values.
Numbers are exact rationals. -/
inductive JVal where
  | jundefined
  | jnull
  | jbool (b : Bool)
  | jnum (q : ℚ)
  | jstr (s : String)
  | jarr (xs : List JVal)
  | jobj (kvs : List (String × JVal))

namespace JVal

/-- JavaScript strict equality `===` on the values the pipeline compares.
Primitives compare structurally; an array or object is `===` only to itself
(reference equality), and every site in scope that compares one does so
against a fresh primitive, so those pairs are never equal. -/
def strictEq : JVal → JVal → Bool
  | jundefined, jundefined => true
  | jnull, jnull => true
  | jbool a, jbool b => a = b
  | jnum a, jnum b => a = b
  | jstr a, jstr b => a = b
  | _, _ => false

/-- JavaScript truthiness: `undefined`, `null`, `false`, `0` and `""` are
falsy, everything else (arrays and objects included) is truthy. -/
def truthy : JVal → Bool
  | jundefined => false
  | jnull => false
  | jbool b => b
  | jnum q => q ≠ 0
  | jstr s => s ≠ ""
  | jarr _ => true
  | jobj _ => true

/-- `v === s` for a string literal `s` (strict equality against a string). -/
def isStr (v : JVal) (s : String) : Bool :=
  match v with
  | jstr t => t = s
  | _ => false

/-- `v == null`-ish: the values on which `??` falls through. -/
def nullish : JVal → Bool
  | jundefined => true
  | jnull => true
  | _ => false

end JVal

/-! ### String-to-number coercion (`Number(s)` on decimal literals)

`none` stands for `NaN`.  The model covers optional sign, integer digits,
fraction digits and the empty string (which coerces to `0`); exotic forms
(hex, exponent, `Infinity`) are mapped to `NaN`, which no claim exercises. -/

def isDigitChar (c : Char) : Bool := '0' ≤ c ∧ c ≤ '9'

def digitsVal (ds : List Char) : ℕ :=
  ds.foldl (fun a c => a * 10 + (c.toNat - '0'.toNat)) 0

/-- JavaScript whitespace (the common cases of `\s`). -/
def isWsChar (c : Char) : Bool :=
  c = ' ' ∨ c = Char.ofNat 9 ∨ c = Char.ofNat 10 ∨ c = Char.ofNat 13 ∨
  c = Char.ofNat 11 ∨ c = Char.ofNat 12

/-- Parse an unsigned decimal `digits [. digits]` into an exact rational. -/
def decimalCore : List Char → Option ℚ
  | cs =>
    let intPart := cs.takeWhile isDigitChar
    let rest := cs.drop intPart.length
    match rest with
    | [] =>
      if intPart = [] then none else some (digitsVal intPart : ℚ)
    | c :: rest2 =>
      if c = '.' then
        let fracPart := rest2.takeWhile isDigitChar
        if rest2.drop fracPart.length ≠ [] then none
        else if intPart = [] ∧ fracPart = [] then none
        else some ((digitsVal intPart : ℚ) +
          (digitsVal fracPart : ℚ) / ((10 : ℚ) ^ fracPart.length))
      else none

/-- `Number(string)` restricted to decimal notation; `none` models `NaN`. -/
def strToNumber (cs : List Char) : Option ℚ :=
  let t := (cs.dropWhile isWsChar).reverse.dropWhile isWsChar |>.reverse
  match t with
  | [] => some 0
  | c :: rest =>
    if c = '-' then (decimalCore rest).map (fun q => -q)
    else if c = '+' then decimalCore rest
    else decimalCore t

/-- `Number(v)`: JavaScript numeric coercion.  Arrays and objects coerce via
their string form in JavaScript; that path is unreachable in the claims and
is modelled as `NaN`. -/
def toNumber : JVal → Option ℚ
  | .jundefined => none
  | .jnull => some 0
  | .jbool b => some (if b then 1 else 0)
  | .jnum q => some q
  | .jstr s => strToNumber s.toList
  | .jarr _ => none
  | .jobj _ => none

/-! ### NaN-aware arithmetic and comparisons

All comparisons involving `NaN` (here `none`) are false, as in JavaScript.
Division by zero is modelled as a non-finite result (`none`); the branches
reached through it coincide with the JavaScript ones on every code path in
scope, since non-finite values never satisfy the interval or threshold
tests that gate behaviour. -/

def qmul? (a b : Option ℚ) : Option ℚ := a.bind fun x => b.map fun y => x * y

def qdiv? (a b : Option ℚ) : Option ℚ :=
  a.bind fun x => b.bind fun y => if y = 0 then none else some (x / y)

def qsub? (a b : Option ℚ) : Option ℚ := a.bind fun x => b.map fun y => x - y

def qabs? (a : Option ℚ) : Option ℚ := a.map abs

def oLt (a : Option ℚ) (c : ℚ) : Bool := match a with | some x => x < c | none => false

def oGt (a : Option ℚ) (c : ℚ) : Bool := match a with | some x => c < x | none => false

def oGe (a : Option ℚ) (c : ℚ) : Bool := match a with | some x => c ≤ x | none => false

def oWithin (a : Option ℚ) (lo hi : ℚ) : Bool :=
  match a with | some x => lo ≤ x ∧ x ≤ hi | none => false

/-! ### Character constants and substring search -/

def qc : Char := Char.ofNat 34      -- double quote
def bsl : Char := Char.ofNat 92     -- backslash
def lbrace : Char := Char.ofNat 123
def rbrace : Char := Char.ofNat 125
def btick : Char := Char.ofNat 96   -- backtick

def skipWsL (cs : List Char) : List Char := cs.dropWhile isWsChar

/-- `String.trim` over the character list. -/
def trimL (cs : List Char) : List Char :=
  ((cs.dropWhile isWsChar).reverse.dropWhile isWsChar).reverse

/-- Tail-recursive worker for `splitAtSub`; `acc` holds the scanned prefix
reversed. -/
def splitAtSubAux (pat : List Char) (acc : List Char) : List Char → Option (List Char × List Char)
  | [] => if pat.isEmpty then some (acc.reverse, []) else none
  | c :: cs =>
    if pat.isPrefixOf (c :: cs) then some (acc.reverse, (c :: cs).drop pat.length)
    else splitAtSubAux pat (c :: acc) cs

/-- Leftmost occurrence of `pat`: returns the text before the match and the
text after it, or `none` when `pat` does not occur. -/
def splitAtSub (pat l : List Char) : Option (List Char × List Char) :=
  splitAtSubAux pat [] l

def containsSub (s pat : String) : Bool := (splitAtSub pat.toList s.toList).isSome

/-! ### A strict JSON parser (the model of `JSON.parse`)

Fuel-indexed recursive descent over the character list; the fuel passed at
the top level is ample for any input.  Divergences from the ECMAScript
parser are confined to malformed inputs (e.g. raw control characters inside
string literals), which only influence which recovery path runs. -/

def hexDigitVal (c : Char) : Option ℕ :=
  if '0' ≤ c ∧ c ≤ '9' then some (c.toNat - '0'.toNat)
  else if 'a' ≤ c ∧ c ≤ 'f' then some (c.toNat - 'a'.toNat + 10)
  else if 'A' ≤ c ∧ c ≤ 'F' then some (c.toNat - 'A'.toNat + 10)
  else none

def unescapeChar (c : Char) : Option Char :=
  if c = qc then some qc
  else if c = bsl then some bsl
  else if c = '/' then some '/'
  else if c = 'n' then some (Char.ofNat 10)
  else if c = 'r' then some (Char.ofNat 13)
  else if c = 't' then some (Char.ofNat 9)
  else if c = 'b' then some (Char.ofNat 8)
  else if c = 'f' then some (Char.ofNat 12)
  else none

/-- Body of a JSON string literal, after the opening quote. -/
def jsonStrBody (acc : List Char) : List Char → Option (String × List Char)
  | [] => none
  | c :: rest =>
    if c = qc then some (String.mk acc.reverse, rest)
    else if c = bsl then
      match rest with
      | [] => none
      | e :: rest2 =>
        if e = 'u' then
          match rest2 with
          | a :: b :: c2 :: d :: rest3 =>
            match hexDigitVal a, hexDigitVal b, hexDigitVal c2, hexDigitVal d with
            | some va, some vb, some vc, some vd =>
              jsonStrBody (Char.ofNat (((va * 16 + vb) * 16 + vc) * 16 + vd) :: acc) rest3
            | _, _, _, _ => none
          | _ => none
        else
          match unescapeChar e with
          | some ch => jsonStrBody (ch :: acc) rest2
          | none => none
    else jsonStrBody (c :: acc) rest

/-- A JSON number per the strict grammar (no leading zeros, mandatory
digits around the dot), as an exact rational. -/
def jsonNumParse (cs : List Char) : Option (ℚ × List Char) :=
  let (neg, cs1) := match cs with | '-' :: r => (true, r) | _ => (false, cs)
  let ip := cs1.takeWhile isDigitChar
  if ip = [] then none
  else if 1 < ip.length ∧ ip.headI = '0' then none
  else
    let cs2 := cs1.drop ip.length
    let (fp, cs3) :=
      match cs2 with
      | '.' :: r => let f := r.takeWhile isDigitChar; (f, r.drop f.length)
      | _ => ([], cs2)
    if (match cs2 with | '.' :: _ => fp.isEmpty | _ => false) then none
    else
      let (ex, cs4) : Option ℤ × List Char :=
        match cs3 with
        | 'e' :: r | 'E' :: r =>
          let (sgn, r1) : ℤ × List Char :=
            match r with
            | '+' :: r2 => (1, r2)
            | '-' :: r2 => (-1, r2)
            | _ => (1, r)
          let eds := r1.takeWhile isDigitChar
          if eds = [] then (none, cs3) else (some (sgn * digitsVal eds), r1.drop eds.length)
        | _ => (some 0, cs3)
      match ex with
      | none => none
      | some e =>
        let mag : ℚ := ((digitsVal ip : ℚ) + (digitsVal fp : ℚ) / (10 : ℚ) ^ fp.length) *
          (10 : ℚ) ^ e
        some (if neg then -mag else mag, cs4)

mutual

def parseJVal : ℕ → List Char → Option (JVal × List Char)
  | 0, _ => none
  | fuel + 1, cs =>
    match skipWsL cs with
    | [] => none
    | c :: rest =>
      if c = qc then (jsonStrBody [] rest).map (fun p => (JVal.jstr p.1, p.2))
      else if c = lbrace then parseObjBody fuel rest
      else if c = '[' then parseArrBody fuel rest
      else if c = 't' then
        match rest with
        | 'r' :: 'u' :: 'e' :: r => some (JVal.jbool true, r)
        | _ => none
      else if c = 'f' then
        match rest with
        | 'a' :: 'l' :: 's' :: 'e' :: r => some (JVal.jbool false, r)
        | _ => none
      else if c = 'n' then
        match rest with
        | 'u' :: 'l' :: 'l' :: r => some (JVal.jnull, r)
        | _ => none
      else if c = '-' ∨ isDigitChar c then
        (jsonNumParse (c :: rest)).map (fun p => (JVal.jnum p.1, p.2))
      else none

def parseArrBody : ℕ → List Char → Option (JVal × List Char)
  | 0, _ => none
  | fuel + 1, cs =>
    match skipWsL cs with
    | c :: r =>
      if c = ']' then some (JVal.jarr [], r)
      else (parseElems fuel (c :: r)).map (fun p => (JVal.jarr p.1, p.2))
    | [] => none

def parseObjBody : ℕ → List Char → Option (JVal × List Char)
  | 0, _ => none
  | fuel + 1, cs =>
    match skipWsL cs with
    | c :: r =>
      if c = rbrace then some (JVal.jobj [], r)
      else (parseMembers fuel (c :: r)).map (fun p => (JVal.jobj p.1, p.2))
    | [] => none

def parseElems : ℕ → List Char → Option (List JVal × List Char)
  | 0, _ => none
  | fuel + 1, cs =>
    (parseJVal fuel cs).bind fun p =>
      match skipWsL p.2 with
      | ',' :: r2 => (parseElems fuel r2).map (fun q => (p.1 :: q.1, q.2))
      | ']' :: r2 => some ([p.1], r2)
      | _ => none

def parseMembers : ℕ → List Char → Option (List (String × JVal) × List Char)
  | 0, _ => none
  | fuel + 1, cs =>
    match skipWsL cs with
    | c :: r =>
      if c = qc then
        (jsonStrBody [] r).bind fun kp =>
          match skipWsL kp.2 with
          | ':' :: r2 =>
            (parseJVal fuel r2).bind fun vp =>
              match skipWsL vp.2 with
              | ',' :: r3 => (parseMembers fuel r3).map (fun q => ((kp.1, vp.1) :: q.1, q.2))
              | d :: r3 =>
                if d = rbrace then some ([(kp.1, vp.1)], r3) else none
              | [] => none
          | _ => none
      else none
    | [] => none

end

/-- `JSON.parse`: a complete document with nothing but whitespace after it. -/
def jsonParseFull (cs : List Char) : Option JVal :=
  (parseJVal (2 * cs.length + 4) cs).bind fun p =>
    if skipWsL p.2 = [] then some p.1 else none

/-! ### The extraction-response parser (stage 3) -/

/-- One extracted field record (`ExtractionMetric` in the source).  `flags`
is typed as a list because every producing site builds an array; a truthy
non-array in the raw record would crash the later spread in JavaScript and
is modelled as the empty list. -/
structure ExtractionMetric where
  metric : JVal
  value : JVal
  override : JVal
  source_document : String
  source_blurb : JVal
  flags : List JVal

/-- The fixed 27-name schema the extractor must cover. -/
def expectedFields : List String :=
  [("property"), ("tenant_name"), ("suite"), ("document_type"), ("suite_sf"),
   ("suite_pro_rata_share"), ("lease_start_date"), ("lease_term_months"),
   ("lease_expiration_date"), ("free_rent_months"), ("starting_rent_monthly"),
   ("rent_escalations"), ("escalation_type"), ("escalation_frequency"),
   ("lease_type"), ("security_deposit"), ("renewal_option"),
   ("renewal_option_term_months"), ("renewal_option_start_mos_prior"),
   ("renewal_option_exp_mos_prior"), ("termination_option"),
   ("termination_option_start"), ("termination_option_expiration"),
   ("rofo_option"), ("rofr_option"), ("purchase_option"), ("_flags")]

/-- Property access `v.k`: `none` models the `TypeError` thrown on `null`
and `undefined` receivers; on other primitives the property is `undefined`;
duplicate JSON keys resolve to the last occurrence. -/
def jvalField (v : JVal) (k : String) : Option JVal :=
  match v with
  | .jnull => none
  | .jundefined => none
  | .jobj kvs => some ((((kvs.reverse.find? (fun p => p.1 = k)).map Prod.snd)).getD .jundefined)
  | _ => some .jundefined

/-- The markdown-fence regex: capture between the first pair of triple
backticks, skipping an optional `json` tag and leading whitespace. -/
def stripFence (s : List Char) : Option (List Char) :=
  let fence := List.replicate 3 btick
  match splitAtSub fence s with
  | none => none
  | some (_, rest) =>
    let rest1 := if ("json").toList.isPrefixOf rest then rest.drop 4 else rest
    let rest2 := skipWsL rest1
    match splitAtSub fence rest2 with
    | none => none
    | some (inner, _) => some inner

/-- `jsonStr`: the fenced content when the response is wrapped, else the
response verbatim. -/
def jsonStrOf (s : List Char) : List Char := (stripFence s).getD s

/-- The structured parsing path: strict JSON parse of the (stripped,
trimmed) text, then `parsed.metrics || parsed`, which must be an array whose
elements survive property access (a `null` element would throw during the
`map` and divert to the fallback). -/
def structuredRawMetrics (s : List Char) : Option (List JVal) :=
  (jsonParseFull (trimL (jsonStrOf s))).bind fun parsed =>
    (jvalField parsed ("metrics")).bind fun mv =>
      let raws := if mv.truthy then mv else parsed
      match raws with
      | .jarr xs =>
        if xs.all (fun r => match r with | .jnull => false | _ => true) then some xs else none
      | _ => none

/-- Convert one raw record of the structured path into a metric. -/
def rawToMetric (src : String) (raw : JVal) : ExtractionMetric :=
  let g : String → JVal := fun k => (jvalField raw k).getD .jundefined
  { metric := g ("metric")
    value := g ("value")
    override := .jnull
    source_document := src
    source_blurb := if (g ("source_blurb")).truthy then g ("source_blurb") else .jstr ""
    flags := match g ("flags") with | .jarr xs => xs | _ => [] }

/-! #### The regex salvage scan

Models `matchAll` of
`/"metric"\s*:\s*"([^"]+)"[\s\S]*?"value"\s*:\s*([^,}\]]+)/g`:
leftmost match, lazy gap between the two halves, greedy value run stopped
by a comma, closing brace or bracket, and resumption after each match. -/

def metricLit : List Char := [qc] ++ ("metric").toList ++ [qc]

def valueLit : List Char := [qc] ++ ("value").toList ++ [qc]

def stopChar (c : Char) : Bool := c = ',' ∨ c = rbrace ∨ c = ']'

/-- After the literal `"metric"`: `\s* : \s* " name "` with a nonempty name. -/
def matchNamePart (cs : List Char) : Option (String × List Char) :=
  match skipWsL cs with
  | ':' :: r2 =>
    match skipWsL r2 with
    | c :: r4 =>
      if c = qc then
        let nm := r4.takeWhile (fun d => ¬ d = qc)
        match r4.drop nm.length with
        | d :: r5 => if d = qc ∧ nm ≠ [] then some (String.mk nm, r5) else none
        | [] => none
      else none
    | [] => none
  | _ => none

/-- After the literal `"value"`: `\s* : \s* ([^,}\]]+)`.  When the greedy
run is empty the `\s*` backtracks one step, capturing a single whitespace
character, exactly as the regex engine does. -/
def matchColonValue (cs : List Char) : Option (List Char × List Char) :=
  match skipWsL cs with
  | ':' :: r2 =>
    let ws := r2.takeWhile isWsChar
    let r3 := r2.drop ws.length
    let run := r3.takeWhile (fun c => ¬ stopChar c)
    if run ≠ [] then some (run, r3.drop run.length)
    else
      match ws.getLast? with
      | some w => some ([w], r3)
      | none => none
  | _ => none

/-- Earliest position from which the whole value half matches (the lazy
`[\s\S]*?` semantics). -/
def findValueMatch : ℕ → List Char → Option (List Char × List Char)
  | 0, _ => none
  | fuel + 1, cs =>
    match splitAtSub valueLit cs with
    | none => none
    | some (_, rest) =>
      match matchColonValue rest with
      | some pr => some pr
      | none => findValueMatch fuel (valueLit.drop 1 ++ rest)

/-- The `matchAll` loop: find a metric half, then the earliest value half
after it; a failed metric half retries from the next character, and a
missing value half ends the scan (no later start can complete either). -/
def scanAux : ℕ → List Char → List (String × List Char)
  | 0, _ => []
  | fuel + 1, cs =>
    match splitAtSub metricLit cs with
    | none => []
    | some (_, rest) =>
      match matchNamePart rest with
      | none => scanAux fuel (metricLit.drop 1 ++ rest)
      | some (nm, r2) =>
        match findValueMatch (r2.length + 1) r2 with
        | none => []
        | some (valChars, r3) => (nm, valChars) :: scanAux fuel r3

def fallbackScan (s : List Char) : List (String × List Char) := scanAux (s.length + 1) s

/-- Coercion of a recovered raw value: literal `null`/`true`/`false`, a
quoted string (`slice(1,-1)`), numeric coercion, else the raw (trimmed)
text. -/
def coerceValue (raw : List Char) : JVal :=
  let t := trimL raw
  if t = ("null").toList then .jnull
  else if t = ("true").toList then .jbool true
  else if t = ("false").toList then .jbool false
  else
    match t with
    | c :: _ =>
      if c = qc then .jstr (String.mk ((t.drop 1).dropLast))
      else
        match strToNumber t with
        | some q => .jnum q
        | none => .jstr (String.mk t)
    | [] =>
      match strToNumber t with
      | some q => .jnum q
      | none => .jstr (String.mk t)

/-- A record recovered by the fallback scan. -/
def fallbackMetric (src : String) (p : String × List Char) : ExtractionMetric :=
  { metric := .jstr p.1
    value := coerceValue p.2
    override := .jnull
    source_document := src
    source_blurb := .jstr ""
    flags := [.jstr ("Extracted via fallback parser")] }

/-- The non-fatal parse error recorded when the structured path fails (the
source embeds the thrown message; its text carries no logic). -/
def jsonParseErrorMsg : String := "JSON parse error: malformed model response"

/-- Phase one of `parseExtractionResponse`: the structured path, or the
salvage scan plus an accumulated error string. -/
def phase1 (s : List Char) (src : String) : List ExtractionMetric × List String :=
  match structuredRawMetrics s with
  | some raws => (raws.map (rawToMetric src), [])
  | none => ((fallbackScan s).map (fallbackMetric src), [jsonParseErrorMsg])

/-- The all-placeholder record for a missing schema name. -/
def placeholderMetric (src : String) (f : String) : ExtractionMetric :=
  { metric := .jstr f
    value := .jnull
    override := .jnull
    source_document := src
    source_blurb := .jstr ""
    flags := [.jstr ("Field not extracted - requires manual entry")] }

/-- Schema completion: append a placeholder for every expected name not
present, recording the missing names as one more error string. -/
def completeSchema (src : String) (p : List ExtractionMetric × List String) :
    List ExtractionMetric × List String :=
  let names := p.1.map ExtractionMetric.metric
  let missing := expectedFields.filter (fun f => ¬ names.any (fun v => v.isStr f))
  if missing.isEmpty then p
  else
    (p.1 ++ missing.map (placeholderMetric src),
     p.2 ++ [("Missing fields: ") ++ String.intercalate (", ") missing])

/-- `parseExtractionResponse`: returns the metric list and the accumulated
(non-thrown) error strings. -/
def parseExtractionResponse (responseText : String) (sourceDocument : String) :
    List ExtractionMetric × List String :=
  completeSchema sourceDocument (phase1 responseText.toList sourceDocument)

/-! ### Effective values and display -/

/-- The effective value of the named metric: `m?.override ?? m?.value` on
the first record with that name. -/
def effValue (metrics : List ExtractionMetric) (name : String) : JVal :=
  match metrics.find? (fun m => m.metric.isStr name) with
  | none => .jundefined
  | some m => if m.override.nullish then m.value else m.override

/-- Template-literal interpolation `x -> String(x)`.  The numeric rendering
is abstracted (no claim depends on the text of a detail or note). -/
def jvalToString : JVal → String
  | .jundefined => "undefined"
  | .jnull => "null"
  | .jbool b => if b then "true" else "false"
  | .jnum q => toString q
  | .jstr s => s
  | .jarr _ => ""
  | .jobj _ => "object"

/-! ### The calendar model for the date-arithmetic check (UTC) -/

structure CalDate where
  year : ℤ
  month : ℤ   -- 0-based as in JavaScript: 0 = January
  day : ℤ

def isLeapYear (y : ℤ) : Bool := y % 4 = 0 ∧ (y % 100 ≠ 0 ∨ y % 400 = 0)

def daysInMonth (y m : ℤ) : ℤ :=
  if m = 1 then (if isLeapYear y then 29 else 28)
  else if m = 3 ∨ m = 5 ∨ m = 8 ∨ m = 10 then 30
  else 31

/-- `new Date("YYYY-MM-DD")` restricted to a valid date-only ISO string;
other shapes are the invalid date (`none`). -/
def parseDateISO (s : String) : Option CalDate :=
  match s.toList with
  | [y1, y2, y3, y4, h1, m1, m2, h2, d1, d2] =>
    if isDigitChar y1 ∧ isDigitChar y2 ∧ isDigitChar y3 ∧ isDigitChar y4 ∧ h1 = '-' ∧
       isDigitChar m1 ∧ isDigitChar m2 ∧ h2 = '-' ∧ isDigitChar d1 ∧ isDigitChar d2 then
      let y : ℤ := (digitsVal [y1, y2, y3, y4] : ℕ)
      let mo : ℤ := (digitsVal [m1, m2] : ℕ)
      let d : ℤ := (digitsVal [d1, d2] : ℕ)
      if 1 ≤ mo ∧ mo ≤ 12 ∧ 1 ≤ d ∧ d ≤ daysInMonth y (mo - 1) then
        some ⟨y, mo - 1, d⟩
      else none
    else none
  | _ => none

/-- `setMonth(M)`: months renormalise with year carry, and a day-of-month
overflowing the target month rolls into the following one. -/
def jsSetMonth (dt : CalDate) (M : ℤ) : CalDate :=
  let total := dt.year * 12 + M
  let y := Int.fdiv total 12
  let m := total - 12 * y
  if daysInMonth y m < dt.day then
    let y2 := Int.fdiv (total + 1) 12
    let m2 := (total + 1) - 12 * y2
    ⟨y2, m2, dt.day - daysInMonth y m⟩
  else ⟨y, m, dt.day⟩

/-- `setDate(0)`: move to the last day of the preceding month. -/
def jsSetDateZero (dt : CalDate) : CalDate :=
  if dt.month = 0 then ⟨dt.year - 1, 11, 31⟩
  else ⟨dt.year, dt.month - 1, daysInMonth dt.year (dt.month - 1)⟩

/-- Truncation toward zero (the integer conversion of `setMonth`), computed
on the reduced fraction. -/
def ratTrunc (q : ℚ) : ℤ := Int.tdiv q.num q.den

/-- The month index handed to `setMonth`, from `getMonth() + termMonths`:
a numeric term adds, a string term concatenates and re-coerces, `none`
models `NaN` (which yields the invalid date). -/
def termMonthsArg (startMonth : ℤ) (term : JVal) : Option ℤ :=
  match term with
  | .jnum q => some (ratTrunc ((startMonth : ℚ) + q))
  | .jbool b => some (startMonth + if b then 1 else 0)
  | .jnull => some startMonth
  | .jstr s => (strToNumber ((toString startMonth).toList ++ s.toList)).map ratTrunc
  | _ => none

/-- Dates are built from string metric values; a numeric timestamp receiver
is out of the modelled scope and maps to the invalid date. -/
def jsDateOf (v : JVal) : Option CalDate :=
  match v with
  | .jstr s => parseDateISO s
  | _ => none

/-! ### The validation engine (stage 4) -/

inductive VStatus where
  | PASS
  | FAIL
  | FLAG
  | SKIP
deriving DecidableEq, Repr

structure ValidationResult where
  check : String
  status : VStatus
  detail : String

def validateRentMath (metrics : List ExtractionMetric) : ValidationResult :=
  let suiteSf := effValue metrics ("suite_sf")
  let monthlyRent := effValue metrics ("starting_rent_monthly")
  if ¬ suiteSf.truthy ∨ ¬ monthlyRent.truthy then
    ⟨"rent_math", .SKIP, "Missing suite_sf or starting_rent_monthly"⟩
  else
    let impliedAnnualRsf := qdiv? (qmul? (toNumber monthlyRent) (some 12)) (toNumber suiteSf)
    let recalculatedMonthly := qdiv? (qmul? (toNumber suiteSf) impliedAnnualRsf) (some 12)
    if oGt (qabs? (qsub? recalculatedMonthly (toNumber monthlyRent))) 1 then
      ⟨"rent_math", .FAIL, "Rent math inconsistent"⟩
    else ⟨"rent_math", .PASS, "rent math consistent"⟩

/-- The caller-supplied building area defaults to this fixed reference. -/
def defaultBuildingSf : ℚ := 138130

def validateProRata (metrics : List ExtractionMetric) (buildingSf : ℚ) :
    ValidationResult :=
  let suiteSf := effValue metrics ("suite_sf")
  let proRata := effValue metrics ("suite_pro_rata_share")
  -- the guard tests `proRata === null || proRata === undefined`: a present 0 proceeds
  if ¬ suiteSf.truthy ∨ proRata.nullish then
    ⟨"pro_rata", .SKIP, "Missing suite_sf or suite_pro_rata_share"⟩
  else
    let expected := qdiv? (toNumber suiteSf) (some buildingSf)
    if oGt (qabs? (qsub? expected (toNumber proRata))) (0.002 : ℚ) then
      ⟨"pro_rata", .FAIL, "pro rata share mismatch"⟩
    else ⟨"pro_rata", .PASS, "pro rata share consistent"⟩

def validateDateArithmetic (metrics : List ExtractionMetric) : ValidationResult :=
  let startDate := effValue metrics ("lease_start_date")
  let termMonths := effValue metrics ("lease_term_months")
  let expirationDate := effValue metrics ("lease_expiration_date")
  if ¬ startDate.truthy ∨ ¬ termMonths.truthy ∨ ¬ expirationDate.truthy then
    ⟨"date_arithmetic", .SKIP, "Missing date(s) or term"⟩
  else
    let failRes : ValidationResult :=
      ⟨"date_arithmetic", .FAIL,
       jvalToString startDate ++ " + " ++ jvalToString termMonths ++ " months ≠ " ++
         jvalToString expirationDate⟩
    -- an invalid date yields NaN year/month, and a NaN comparison makes the
    -- mismatch condition true, so invalid inputs land in FAIL (the catch /
    -- SKIP branch of the source is unreachable: `new Date` does not throw)
    match jsDateOf startDate, jsDateOf expirationDate with
    | some start, some expiration =>
      match termMonthsArg start.month termMonths with
      | some M =>
        let expectedExp := jsSetDateZero (jsSetMonth start M)
        if expiration.year ≠ expectedExp.year ∨
           1 < (expiration.month - expectedExp.month).natAbs then failRes
        else
          ⟨"date_arithmetic", .PASS,
           jvalToString startDate ++ " + " ++ jvalToString termMonths ++ " months = " ++
             jvalToString expirationDate⟩
      | none => failRes
    | _, _ => failRes

def validateEscalationConsistency (metrics : List ExtractionMetric) : ValidationResult :=
  let escalationValue := effValue metrics ("rent_escalations")
  let escalationType := effValue metrics ("escalation_type")
  let startingRent := effValue metrics ("starting_rent_monthly")
  let suiteSf := effValue metrics ("suite_sf")
  if ¬ escalationValue.truthy ∨ ¬ escalationType.truthy ∨ ¬ startingRent.truthy ∨
     ¬ suiteSf.truthy then
    ⟨"escalation_consistency", .SKIP, "Missing escalation data"⟩
  else
    let annualRsf := qdiv? (qmul? (toNumber startingRent) (some 12)) (toNumber suiteSf)
    let nv := toNumber escalationValue
    let looksLikeDollar := oGe nv (0.50 : ℚ)
    let isLikelyThreePercent := oWithin nv (0.029 : ℚ) (0.031 : ℚ)
    let impliedPercentFromDollar := qdiv? nv annualRsf
    let dollarIsLikelyThreePercent := oWithin impliedPercentFromDollar (0.025 : ℚ) (0.035 : ℚ)
    if escalationType.isStr ("percentage") ∧ looksLikeDollar then
      ⟨"escalation_consistency", .FLAG, "Classified as percentage but value looks like dollar amount"⟩
    else if (escalationType.isStr ("fixed_dollar_per_rsf") ∨ escalationType.isStr ("step_schedule")) ∧
        dollarIsLikelyThreePercent then
      ⟨"escalation_consistency", .FLAG, "Dollar escalation equals a common percentage increase"⟩
    else if escalationType.isStr ("percentage") ∧ isLikelyThreePercent then
      ⟨"escalation_consistency", .PASS, "annual escalation confirmed"⟩
    else
      ⟨"escalation_consistency", .PASS,
       "Escalation: " ++ jvalToString escalationType ++ " = " ++ jvalToString escalationValue⟩

def validateDepositSanity (metrics : List ExtractionMetric) : ValidationResult :=
  let deposit := effValue metrics ("security_deposit")
  let monthlyRent := effValue metrics ("starting_rent_monthly")
  if ¬ deposit.truthy ∨ ¬ monthlyRent.truthy then
    ⟨"deposit_sanity", .SKIP, "Missing deposit or rent"⟩
  else
    let ratio := qdiv? (toNumber deposit) (toNumber monthlyRent)
    if oLt ratio (0.5 : ℚ) ∨ oGt ratio (6.0 : ℚ) then
      ⟨"deposit_sanity", .FLAG, "Deposit ratio outside typical range"⟩
    else ⟨"deposit_sanity", .PASS, "deposit within typical range"⟩

def runValidation (metrics : List ExtractionMetric) : List ValidationResult :=
  [validateRentMath metrics, validateProRata metrics defaultBuildingSf,
   validateDateArithmetic metrics, validateEscalationConsistency metrics,
   validateDepositSanity metrics]

/-! ### The auto-correction engine -/

inductive Confidence where
  | high
  | medium
  | low
deriving DecidableEq, Repr

structure EscalationAnalysis where
  suggestedType : JVal
  suggestedValue : JVal
  confidence : Confidence
  reasoning : String

def analyzeEscalation (startingRent suiteSf currentValue currentType : JVal) :
    EscalationAnalysis :=
  let annualRsf := qdiv? (qmul? (toNumber startingRent) (some 12)) (toNumber suiteSf)
  let nv := toNumber currentValue
  if oGe nv (0.5 : ℚ) then
    let impliedPercent := qdiv? nv annualRsf
    if oWithin impliedPercent (0.025 : ℚ) (0.035 : ℚ) then
      ⟨.jstr ("percentage"), .jnum (0.03 : ℚ), .high,
       jvalToString currentValue ++ "/RSF increase is about a 3 percent annual escalation"⟩
    else if oWithin impliedPercent (0.045 : ℚ) (0.055 : ℚ) then
      ⟨.jstr ("percentage"), .jnum (0.05 : ℚ), .high,
       jvalToString currentValue ++ "/RSF increase is about a 5 percent annual escalation"⟩
    else
      ⟨.jstr ("fixed_dollar_per_rsf"), currentValue, .medium,
       jvalToString currentValue ++ "/RSF appears to be a fixed dollar escalation"⟩
  else if oLt nv (0.20 : ℚ) then
    ⟨.jstr ("percentage"), currentValue, .high,
     jvalToString currentValue ++ " is a valid percentage escalation"⟩
  else
    ⟨currentType, currentValue, .low, "Unable to determine escalation pattern with confidence"⟩

/-- The per-record override writer of the escalation corrector. -/
def escUpdate (analysis : EscalationAnalysis) (currentType : JVal) (m : ExtractionMetric) :
    ExtractionMetric :=
  if m.metric.isStr ("rent_escalations") then
    { m with override := analysis.suggestedValue,
             flags := m.flags ++ [.jstr (("Auto-corrected: ") ++ analysis.reasoning)] }
  else if m.metric.isStr ("escalation_type") then
    { m with override := analysis.suggestedType,
             flags := m.flags ++ [.jstr (("Auto-corrected from ") ++
               jvalToString currentType ++ (" to ") ++ jvalToString analysis.suggestedType)] }
  else m

def applyEscalationCorrection (metrics : List ExtractionMetric) : List ExtractionMetric :=
  let startingRent := effValue metrics ("starting_rent_monthly")
  let suiteSf := effValue metrics ("suite_sf")
  let currentValue := effValue metrics ("rent_escalations")
  let currentType := effValue metrics ("escalation_type")
  if ¬ startingRent.truthy ∨ ¬ suiteSf.truthy ∨ ¬ currentValue.truthy ∨ ¬ currentType.truthy then
    metrics
  else
    let analysis := analyzeEscalation startingRent suiteSf currentValue currentType
    if analysis.confidence = .high ∧
       (¬ JVal.strictEq analysis.suggestedType currentType ∨
        ¬ JVal.strictEq analysis.suggestedValue currentValue) then
      metrics.map (escUpdate analysis currentType)
    else metrics

/-- `(m.source_blurb || "").toLowerCase()`: falsy values become the empty
string; a truthy non-string receiver would throw and is unreachable. -/
def blurbLower (b : JVal) : String :=
  match b with
  | .jstr s => s.toLower
  | _ => ""

def applyLeaseTypeCorrection (metrics : List ExtractionMetric) : List ExtractionMetric :=
  metrics.map (fun m =>
    if m.metric.isStr ("document_type") ∨ m.metric.isStr ("lease_type") then
      let blurb := blurbLower m.source_blurb
      let currentValue := if m.override.nullish then m.value else m.override
      if (containsSub blurb ("triple-net") ∨ containsSub blurb ("triple net") ∨
          containsSub blurb ("nnn") ∨ containsSub blurb ("net net net")) ∧
         ¬ currentValue.isStr ("NNN") then
        { m with override := .jstr ("NNN"),
                 flags := m.flags ++
                   [.jstr ("Auto-corrected to NNN: source text contains explicit triple-net language")] }
      else m
    else m)

/-! ### The pipeline orchestrator

The external collaborators (renderer, classifier model, extraction model,
clock) are supplied as an oracle; the second component of the result is the
trace of stages invoked. -/

def isAmendment (filename : String) : Bool :=
  let lower := filename.toLower
  containsSub lower ("amendment") ∨ containsSub lower ("amend") ∨
  containsSub lower ("addendum") ∨ containsSub lower ("modification")

/-- `path.basename` on posix paths. -/
def basename (p : String) : String :=
  let r := p.toList.reverse.dropWhile (fun c => c = '/')
  String.mk ((r.takeWhile (fun c => ¬ c = '/')).reverse)

structure PageImage where
  content : String

structure ExtractionOutcome where
  metrics : List ExtractionMetric
  model : String
  errors : List String

structure PipelineOracle where
  renderedPages : List PageImage
  detectedType : String
  extraction : ExtractionOutcome
  now : String

structure PipelineOptions where
  forceDocumentType : Option String := none
  skipExtraction : Bool := false
  maxPages : Option ℕ := none

structure PipelineSkipped where
  reason : String
  filename : String

structure PipelineOutput where
  filename : String
  document_type : String
  metrics : List ExtractionMetric
  validation_results : List ValidationResult
  page_count : ℕ
  model : String
  extracted_at : String
  errors : List String

inductive PipelineOutcome where
  | skipped (s : PipelineSkipped)
  | fatalError (msg : String)
  | completed (out : PipelineOutput)

def PipelineOutcome.isSkipped : PipelineOutcome → Bool
  | .skipped _ => true
  | _ => false

def amendmentSkipReason : String :=
  "Amendment detected - amendment processing not yet implemented"

def runPipeline (pdfPath : String) (options : PipelineOptions) (oracle : PipelineOracle) :
    PipelineOutcome × List String :=
  let filename := basename pdfPath
  if isAmendment filename then (.skipped ⟨amendmentSkipReason, filename⟩, [])
  else
    let pages := oracle.renderedPages
    if pages.length = 0 then (.fatalError ("No pages extracted from PDF"), [("render")])
    else
      let maxPages := options.maxPages.getD 25
      let pages := if maxPages < pages.length then pages.take maxPages else pages
      let documentType :=
        match options.forceDocumentType with
        | some d => d
        | none => oracle.detectedType
      let classifyTrace : List String :=
        match options.forceDocumentType with
        | some _ => []
        | none => [("classify")]
      let metrics0 := if options.skipExtraction then [] else oracle.extraction.metrics
      let model := if options.skipExtraction then "" else oracle.extraction.model
      let errs := if options.skipExtraction then [] else oracle.extraction.errors
      let extractTrace : List String := if options.skipExtraction then [] else [("extract")]
      let corrected := applyEscalationCorrection (applyLeaseTypeCorrection metrics0)
      let metrics1 := if 0 < metrics0.length then corrected else metrics0
      let validationResults := if 0 < metrics0.length then runValidation corrected else []
      let validateTrace : List String := if 0 < metrics0.length then [("validate")] else []
      (.completed ⟨filename, documentType, metrics1, validationResults, pages.length, model,
        oracle.now, errs⟩,
       [("render")] ++ classifyTrace ++ extractTrace ++ validateTrace)

/-! ## Helper lemmas -/

theorem JVal.isStr_iff (v : JVal) (s : String) : v.isStr s = true ↔ v = .jstr s := by
  cases v <;> simp [JVal.isStr]

theorem mem_completeSchema_left {src : String} {p : List ExtractionMetric × List String}
    {m : ExtractionMetric} (h : m ∈ p.1) : m ∈ (completeSchema src p).1 := by
  unfold completeSchema
  dsimp only
  split
  · exact h
  · exact List.mem_append_left _ h

theorem completeSchema_errors_mono {src : String} {p : List ExtractionMetric × List String}
    {e : String} (h : e ∈ p.2) : e ∈ (completeSchema src p).2 := by
  unfold completeSchema
  dsimp only
  split
  · exact h
  · exact List.mem_append_left _ h

theorem completeSchema_placeholder (src : String) (p : List ExtractionMetric × List String)
    (f : String) (hf : f ∈ expectedFields)
    (h : (p.1.map ExtractionMetric.metric).any (fun v => v.isStr f) = false) :
    placeholderMetric src f ∈ (completeSchema src p).1 := by
  have hmem : f ∈ expectedFields.filter
      (fun f => ¬ (p.1.map ExtractionMetric.metric).any (fun v => v.isStr f)) := by
    simp only [List.mem_filter]
    exact ⟨hf, by simp [h]⟩
  unfold completeSchema
  dsimp only
  split
  · rename_i hempty
    rw [List.isEmpty_iff] at hempty
    rw [hempty] at hmem
    simp at hmem
  · exact List.mem_append_right _ (List.mem_map_of_mem _ hmem)

theorem completeSchema_coverage (src : String) (p : List ExtractionMetric × List String)
    (f : String) (hf : f ∈ expectedFields) :
    ∃ m ∈ (completeSchema src p).1, m.metric = JVal.jstr f := by
  by_cases hany : (p.1.map ExtractionMetric.metric).any (fun v => v.isStr f) = true
  · rw [List.any_eq_true] at hany
    obtain ⟨v, hv, hvf⟩ := hany
    rw [List.mem_map] at hv
    obtain ⟨m, hm, hmv⟩ := hv
    refine ⟨m, mem_completeSchema_left hm, ?_⟩
    rw [hmv]
    exact (JVal.isStr_iff _ _).mp hvf
  · refine ⟨placeholderMetric src f, ?_, rfl⟩
    exact completeSchema_placeholder src p f hf (by simpa using hany)

theorem completeSchema_of_empty (src : String) (p : List ExtractionMetric × List String)
    (h : p.1 = []) :
    (completeSchema src p).1 = expectedFields.map (placeholderMetric src) := by
  unfold completeSchema
  dsimp only
  rw [h]
  simp [expectedFields]

/-! ## C1 -/

/-- C1: for every model response and source filename, `parseExtractionResponse`
covers the fixed 27-name schema: every expected name is present in the
returned metric list; any name missing from the structurally-parsed or
regex-recovered records appears as the all-placeholder record (null value,
"Field not extracted - requires manual entry" flag); a structured-parse
failure is accumulated as an error string rather than thrown; and when both
paths recover nothing the result is exactly the 27 placeholders. -/
theorem c1_schema_coverage (response sourceDoc : String) :
    (∀ f ∈ expectedFields,
        ∃ m ∈ (parseExtractionResponse response sourceDoc).1, m.metric = JVal.jstr f)
  ∧ (∀ f ∈ expectedFields,
        ((phase1 response.toList sourceDoc).1.map ExtractionMetric.metric).any
            (fun v => v.isStr f) = false →
        placeholderMetric sourceDoc f ∈ (parseExtractionResponse response sourceDoc).1)
  ∧ (structuredRawMetrics response.toList = none →
        jsonParseErrorMsg ∈ (parseExtractionResponse response sourceDoc).2)
  ∧ ((phase1 response.toList sourceDoc).1 = [] →
        (parseExtractionResponse response sourceDoc).1 =
          expectedFields.map (placeholderMetric sourceDoc)) := by
  refine ⟨?_, ?_, ?_, ?_⟩
  · intro f hf
    exact completeSchema_coverage sourceDoc _ f hf
  · intro f hf h
    exact completeSchema_placeholder sourceDoc _ f hf h
  · intro h
    apply completeSchema_errors_mono
    unfold phase1
    rw [h]
    simp
  · intro h
    exact completeSchema_of_empty sourceDoc _ h

/-- Witness for C1 at a concrete unparseable response: the name `property`
is covered, its placeholder is present, the parse error is recorded, and
the result is exactly the 27 placeholders. -/
theorem c1_schema_coverage_witness :
    (∃ m ∈ (parseExtractionResponse ("garbage") ("lease.pdf")).1,
        m.metric = JVal.jstr ("property"))
  ∧ placeholderMetric ("lease.pdf") ("property") ∈
      (parseExtractionResponse ("garbage") ("lease.pdf")).1
  ∧ jsonParseErrorMsg ∈ (parseExtractionResponse ("garbage") ("lease.pdf")).2
  ∧ (parseExtractionResponse ("garbage") ("lease.pdf")).1 =
      expectedFields.map (placeholderMetric ("lease.pdf")) := by
  have h := c1_schema_coverage ("garbage") ("lease.pdf")
  refine ⟨h.1 ("property") (by simp [expectedFields]), ?_, ?_, ?_⟩
  · exact h.2.1 ("property") (by simp [expectedFields]) (by rfl)
  · exact h.2.2.1 (by rfl)
  · exact h.2.2.2 (by rfl)

/-! ## C7 -/

/-- A metric set with a present area and a zero pro-rata share: the claim
predicts SKIP, the code FAILs (`0.002 < |1000 / 138130 - 0|`). -/
def proRataZeroMetrics : List ExtractionMetric :=
  [⟨.jstr ("suite_sf"), .jnum 1000, .jnull, ("d"), .jstr (""), []⟩,
   ⟨.jstr ("suite_pro_rata_share"), .jnum 0, .jnull, ("d"), .jstr (""), []⟩]

/-- C7 counterexample: `validateProRata` with `suite_sf` present and
`suite_pro_rata_share` equal to `0` returns FAIL, not SKIP — its guard only
tests the share for `null`/`undefined`, so a present zero proceeds to the
comparison. -/
theorem c7_counterexample :
    (validateProRata proRataZeroMetrics defaultBuildingSf).status = VStatus.FAIL := by
  with_unfolding_all rfl

/-- C7 (amended): four of the five checks return SKIP whenever a required
input is missing, null or zero (falsy), and `validateProRata` skips when
`suite_sf` is falsy or the share is null/undefined; but a present zero
share is not skipped — it proceeds to the comparison (and can FAIL), for
any building area. -/
theorem c7_skip_on_missing (metrics : List ExtractionMetric) :
    ((¬ (effValue metrics ("suite_sf")).truthy ∨
      ¬ (effValue metrics ("starting_rent_monthly")).truthy) →
      (validateRentMath metrics).status = VStatus.SKIP)
  ∧ ((¬ (effValue metrics ("lease_start_date")).truthy ∨
      ¬ (effValue metrics ("lease_term_months")).truthy ∨
      ¬ (effValue metrics ("lease_expiration_date")).truthy) →
      (validateDateArithmetic metrics).status = VStatus.SKIP)
  ∧ ((¬ (effValue metrics ("rent_escalations")).truthy ∨
      ¬ (effValue metrics ("escalation_type")).truthy ∨
      ¬ (effValue metrics ("starting_rent_monthly")).truthy ∨
      ¬ (effValue metrics ("suite_sf")).truthy) →
      (validateEscalationConsistency metrics).status = VStatus.SKIP)
  ∧ ((¬ (effValue metrics ("security_deposit")).truthy ∨
      ¬ (effValue metrics ("starting_rent_monthly")).truthy) →
      (validateDepositSanity metrics).status = VStatus.SKIP)
  ∧ (∀ b : ℚ, (¬ (effValue metrics ("suite_sf")).truthy ∨
      (effValue metrics ("suite_pro_rata_share")).nullish) →
      (validateProRata metrics b).status = VStatus.SKIP)
  ∧ (∀ b : ℚ, (effValue metrics ("suite_sf")).truthy →
      effValue metrics ("suite_pro_rata_share") = .jnum 0 →
      (validateProRata metrics b).status ≠ VStatus.SKIP) := by
  refine ⟨?_, ?_, ?_, ?_, ?_, ?_⟩
  · intro h
    unfold validateRentMath
    dsimp only
    split
    · rfl
    · rename_i hc; exact absurd h hc
  · intro h
    unfold validateDateArithmetic
    dsimp only
    split
    · rfl
    · rename_i hc; exact absurd h hc
  · intro h
    unfold validateEscalationConsistency
    dsimp only
    split
    · rfl
    · rename_i hc; exact absurd h hc
  · intro h
    unfold validateDepositSanity
    dsimp only
    split
    · rfl
    · rename_i hc; exact absurd h hc
  · intro b h
    unfold validateProRata
    dsimp only
    split
    · rfl
    · rename_i hc; exact absurd h hc
  · intro b htr h0
    unfold validateProRata
    dsimp only
    rw [h0]
    rw [if_neg (by simp [JVal.nullish, htr])]
    split <;> simp

/-- Witness for C7: at an empty metric set every skippable check skips,
and at the zero-share set the pro-rata check does not skip. -/
theorem c7_skip_on_missing_witness :
    (validateRentMath []).status = VStatus.SKIP
  ∧ (validateDateArithmetic []).status = VStatus.SKIP
  ∧ (validateEscalationConsistency []).status = VStatus.SKIP
  ∧ (validateDepositSanity []).status = VStatus.SKIP
  ∧ (validateProRata [] defaultBuildingSf).status = VStatus.SKIP
  ∧ (validateProRata proRataZeroMetrics defaultBuildingSf).status ≠ VStatus.SKIP := by
  refine ⟨(c7_skip_on_missing []).1 (by simp [effValue, JVal.truthy]),
    (c7_skip_on_missing []).2.1 (by simp [effValue, JVal.truthy]),
    (c7_skip_on_missing []).2.2.1 (by simp [effValue, JVal.truthy]),
    (c7_skip_on_missing []).2.2.2.1 (by simp [effValue, JVal.truthy]),
    (c7_skip_on_missing []).2.2.2.2.1 defaultBuildingSf (by simp [effValue, JVal.truthy]),
    (c7_skip_on_missing proRataZeroMetrics).2.2.2.2.2 defaultBuildingSf (by decide) (by rfl)⟩

/-! ## C3 -/

/-- The claim's own dates: start 2024-09-01, term 40 months, stated
expiration 2028-01-31 (a one-month delta from the expected 2027-12-31). -/
def dateDeltaOneMetrics : List ExtractionMetric :=
  [⟨.jstr ("lease_start_date"), .jstr ("2024-09-01"), .jnull, ("d"), .jstr (""), []⟩,
   ⟨.jstr ("lease_term_months"), .jnum 40, .jnull, ("d"), .jstr (""), []⟩,
   ⟨.jstr ("lease_expiration_date"), .jstr ("2028-01-31"), .jnull, ("d"), .jstr (""), []⟩]

/-- C3 counterexample: with start 2024-09-01 and term 40, a stated
expiration of 2028-01-31 FAILs (the claim predicts PASS): the expected
expiration is 2027-12-31 and the year check `2028 ≠ 2027` fires before any
month slack is considered. -/
theorem c3_counterexample :
    (validateDateArithmetic dateDeltaOneMetrics).status = VStatus.FAIL := by
  with_unfolding_all rfl

/-- C3 (amended): for present, parseable dates and a nonzero numeric term,
the check computes the expected expiration as the last calendar day of the
month preceding start-plus-term, and returns FAIL exactly when the stated
expiration's year differs or its (0-based) month differs by more than 1 —
so with start 2024-09-01 and term 40 (expected 2027-12-31), both
2028-02-28 and 2028-01-31 FAIL, the latter because the one-month slack
never crosses a year boundary. -/
theorem c3_amended_date_arithmetic (metrics : List ExtractionMetric)
    (S E : String) (T : ℚ) (d1 d2 : CalDate)
    (hS : effValue metrics ("lease_start_date") = .jstr S)
    (hT : effValue metrics ("lease_term_months") = .jnum T)
    (hE : effValue metrics ("lease_expiration_date") = .jstr E)
    (hT0 : T ≠ 0)
    (hd1 : parseDateISO S = some d1) (hd2 : parseDateISO E = some d2) :
    (validateDateArithmetic metrics).status =
      (if d2.year ≠ (jsSetDateZero (jsSetMonth d1 (ratTrunc ((d1.month : ℚ) + T)))).year ∨
          1 < (d2.month -
            (jsSetDateZero (jsSetMonth d1 (ratTrunc ((d1.month : ℚ) + T)))).month).natAbs
       then VStatus.FAIL else VStatus.PASS) := by
  have hSne : S ≠ "" := by
    intro he
    rw [he] at hd1
    simp [parseDateISO] at hd1
  have hEne : E ≠ "" := by
    intro he
    rw [he] at hd2
    simp [parseDateISO] at hd2
  unfold validateDateArithmetic
  rw [hS, hT, hE]
  rw [if_neg (by simp [JVal.truthy, hSne, hEne, hT0])]
  dsimp only [jsDateOf]
  rw [hd1, hd2]
  dsimp only [termMonthsArg]
  by_cases hc : d2.year ≠ (jsSetDateZero (jsSetMonth d1 (ratTrunc ((d1.month : ℚ) + T)))).year ∨
      1 < (d2.month -
        (jsSetDateZero (jsSetMonth d1 (ratTrunc ((d1.month : ℚ) + T)))).month).natAbs
  · rw [if_pos hc, if_pos hc]
  · rw [if_neg hc, if_neg hc]

/-- Witness for C3 at start 2024-09-01, term 40, expiration 2027-12-31:
the expected and stated dates agree, so the check passes. -/
theorem c3_amended_date_arithmetic_witness :
    (validateDateArithmetic
      [⟨.jstr ("lease_start_date"), .jstr ("2024-09-01"), .jnull, ("d"), .jstr (""), []⟩,
       ⟨.jstr ("lease_term_months"), .jnum 40, .jnull, ("d"), .jstr (""), []⟩,
       ⟨.jstr ("lease_expiration_date"), .jstr ("2027-12-31"), .jnull, ("d"), .jstr (""), []⟩]).status =
      VStatus.PASS := by
  rw [c3_amended_date_arithmetic
    [⟨.jstr ("lease_start_date"), .jstr ("2024-09-01"), .jnull, ("d"), .jstr (""), []⟩,
     ⟨.jstr ("lease_term_months"), .jnum 40, .jnull, ("d"), .jstr (""), []⟩,
     ⟨.jstr ("lease_expiration_date"), .jstr ("2027-12-31"), .jnull, ("d"), .jstr (""), []⟩]
    ("2024-09-01") ("2027-12-31") 40 ⟨2024, 8, 1⟩ ⟨2027, 11, 31⟩
    rfl rfl rfl (by norm_num) (by with_unfolding_all rfl) (by with_unfolding_all rfl)]
  with_unfolding_all rfl

/-! ## C8 -/

/-- C8: a filename that case-insensitively contains an amendment indicator
makes `runPipeline` return the skipped shape (reason and filename) with an
empty stage trace — no rendering, classification, extraction, correction or
validation runs; any other filename never produces the skipped shape; the
two terminal shapes are mutually exclusive. -/
theorem c8_amendment_skip (pdfPath : String) (opts : PipelineOptions) (oc : PipelineOracle) :
    ((runPipeline pdfPath opts oc).1.isSkipped = isAmendment (basename pdfPath))
  ∧ (isAmendment (basename pdfPath) = true →
      runPipeline pdfPath opts oc =
        (.skipped ⟨amendmentSkipReason, basename pdfPath⟩, [])) := by
  constructor
  · unfold runPipeline
    dsimp only
    cases h : isAmendment (basename pdfPath)
    · simp only [h, Bool.false_eq_true, if_false]
      split
      · rfl
      · rfl
    · simp [h, PipelineOutcome.isSkipped]
  · intro h
    unfold runPipeline
    dsimp only
    rw [if_pos h]

/-- Witness for C8: "Suite200_Amendment_2024.pdf" is skipped with an empty
trace, while "Suite200_Lease.pdf" is not skipped. -/
theorem c8_amendment_skip_witness
    (oc : PipelineOracle) :
    runPipeline ("Suite200_Amendment_2024.pdf") {} oc =
      (.skipped ⟨amendmentSkipReason, ("Suite200_Amendment_2024.pdf")⟩, [])
  ∧ (runPipeline ("Suite200_Lease.pdf") {} oc).1.isSkipped = false := by
  constructor
  · exact (c8_amendment_skip ("Suite200_Amendment_2024.pdf") {} oc).2 (by with_unfolding_all rfl)
  · rw [(c8_amendment_skip ("Suite200_Lease.pdf") {} oc).1]
    with_unfolding_all rfl

/-! ## C9 -/

/-- C9: for a non-amendment filename, zero rendered pages abort the run
with the fatal-error shape (neither a result nor a skip); otherwise the run
completes, the reported page count is the minimum of the rendered count and
the configured maximum (default 25), and the result's error list is exactly
the extraction stage's errors — truncation records no error. -/
theorem c9_page_handling (pdfPath : String) (opts : PipelineOptions) (oc : PipelineOracle)
    (hna : isAmendment (basename pdfPath) = false) :
    (oc.renderedPages = [] →
      runPipeline pdfPath opts oc =
        (.fatalError ("No pages extracted from PDF"), [("render")]))
  ∧ (oc.renderedPages ≠ [] → ∃ out : PipelineOutput,
      (runPipeline pdfPath opts oc).1 = .completed out ∧
      out.page_count = min oc.renderedPages.length (opts.maxPages.getD 25) ∧
      out.errors = (if opts.skipExtraction then [] else oc.extraction.errors)) := by
  constructor
  · intro h
    unfold runPipeline
    dsimp only
    rw [if_neg (by simp [hna])]
    rw [if_pos (by simp [h])]
  · intro h
    unfold runPipeline
    dsimp only
    rw [if_neg (by simp [hna])]
    rw [if_neg (by simp [h])]
    refine ⟨_, rfl, ?_, rfl⟩
    dsimp only
    by_cases hm : opts.maxPages.getD 25 < oc.renderedPages.length
    · rw [if_pos hm]
      simp [List.length_take]
      omega
    · rw [if_neg hm]
      omega

/-- Witness for C9: with two rendered pages and a maximum of one, the run
completes with page count 1 and no errors; with zero pages it aborts. -/
theorem c9_page_handling_witness :
    (∃ out : PipelineOutput,
      (runPipeline ("a.pdf") { maxPages := some 1 }
        ⟨[⟨("p1")⟩, ⟨("p2")⟩], ("FSG"), ⟨[], ("m"), []⟩, ("t")⟩).1 = .completed out ∧
      out.page_count = min 2 1 ∧
      out.errors = (if false then [] else ([] : List String)))
  ∧ runPipeline ("a.pdf") { maxPages := some 1 } ⟨[], ("FSG"), ⟨[], ("m"), []⟩, ("t")⟩ =
      (.fatalError ("No pages extracted from PDF"), [("render")]) := by
  constructor
  · exact (c9_page_handling ("a.pdf") { maxPages := some 1 }
      ⟨[⟨("p1")⟩, ⟨("p2")⟩], ("FSG"), ⟨[], ("m"), []⟩, ("t")⟩
      (by with_unfolding_all rfl)).2 (by simp)
  · exact (c9_page_handling ("a.pdf") { maxPages := some 1 }
      ⟨[], ("FSG"), ⟨[], ("m"), []⟩, ("t")⟩ (by with_unfolding_all rfl)).1 rfl

/-! ## C4 -/

theorem escUpdate_metric (a : EscalationAnalysis) (t : JVal) (m : ExtractionMetric) :
    (escUpdate a t m).metric = m.metric := by
  unfold escUpdate
  split
  · rfl
  · split <;> rfl

theorem effValue_map_escUpdate (a : EscalationAnalysis) (t : JVal)
    (l : List ExtractionMetric) (name : String) :
    effValue (l.map (escUpdate a t)) name =
      (match l.find? (fun m => m.metric.isStr name) with
       | none => JVal.jundefined
       | some m =>
         if (escUpdate a t m).override.nullish then (escUpdate a t m).value
         else (escUpdate a t m).override) := by
  unfold effValue
  rw [List.find?_map]
  have hp : ((fun m : ExtractionMetric => m.metric.isStr name) ∘ escUpdate a t) =
      (fun m : ExtractionMetric => m.metric.isStr name) := by
    funext m
    simp [Function.comp, escUpdate_metric]
  rw [hp]
  cases l.find? (fun m : ExtractionMetric => m.metric.isStr name) <;> rfl

theorem find?_of_effValue {metrics : List ExtractionMetric} {name : String}
    (h : effValue metrics name ≠ .jundefined) :
    ∃ m, metrics.find? (fun m => m.metric.isStr name) = some m ∧ m.metric = .jstr name := by
  unfold effValue at h
  cases hf : metrics.find? (fun m : ExtractionMetric => m.metric.isStr name) with
  | none => rw [hf] at h; exact absurd rfl h
  | some m =>
    have hp := List.find?_some hf
    exact ⟨m, rfl, (JVal.isStr_iff _ _).mp hp⟩

/-- C4: when the four escalation inputs are present nonzero numbers (with a
nonempty type string) and the current value is dollar-like (at least 0.5),
the corrector computes the implied percentage against
`annualRatePerArea = startingRent * 12 / suiteSf`; inside the
[0.025, 0.035] band (resp. [0.045, 0.055]) it reaches high confidence and
overrides `rent_escalations` to 0.03 (resp. 0.05) and `escalation_type` to
`percentage`, appending a note to each touched record and leaving every
other record unchanged; outside both bands the confidence is medium and no
override is applied. -/
theorem c4_escalation_correction (metrics : List ExtractionMetric) (R S V : ℚ) (T : String)
    (hR : effValue metrics ("starting_rent_monthly") = .jnum R)
    (hS : effValue metrics ("suite_sf") = .jnum S)
    (hV : effValue metrics ("rent_escalations") = .jnum V)
    (hT : effValue metrics ("escalation_type") = .jstr T)
    (hR0 : R ≠ 0) (hS0 : S ≠ 0) (hV0 : V ≠ 0) (hT0 : T ≠ "") (hhalf : (0.5 : ℚ) ≤ V) :
    ((0.025 : ℚ) ≤ V / (R * 12 / S) ∧ V / (R * 12 / S) ≤ (0.035 : ℚ) →
      (analyzeEscalation (.jnum R) (.jnum S) (.jnum V) (.jstr T)).confidence = .high ∧
      (analyzeEscalation (.jnum R) (.jnum S) (.jnum V) (.jstr T)).suggestedType =
        .jstr ("percentage") ∧
      (analyzeEscalation (.jnum R) (.jnum S) (.jnum V) (.jstr T)).suggestedValue =
        .jnum (0.03 : ℚ) ∧
      effValue (applyEscalationCorrection metrics) ("rent_escalations") = .jnum (0.03 : ℚ) ∧
      effValue (applyEscalationCorrection metrics) ("escalation_type") = .jstr ("percentage") ∧
      (∀ m ∈ metrics, m.metric.isStr ("rent_escalations") = true →
        { m with override := .jnum (0.03 : ℚ),
                 flags := m.flags ++ [.jstr (("Auto-corrected: ") ++
                   (analyzeEscalation (.jnum R) (.jnum S) (.jnum V) (.jstr T)).reasoning)] } ∈
          applyEscalationCorrection metrics) ∧
      (∀ m ∈ metrics, m.metric.isStr ("rent_escalations") = false →
        m.metric.isStr ("escalation_type") = false → m ∈ applyEscalationCorrection metrics))
  ∧ ((0.045 : ℚ) ≤ V / (R * 12 / S) ∧ V / (R * 12 / S) ≤ (0.055 : ℚ) →
      (analyzeEscalation (.jnum R) (.jnum S) (.jnum V) (.jstr T)).confidence = .high ∧
      (analyzeEscalation (.jnum R) (.jnum S) (.jnum V) (.jstr T)).suggestedType =
        .jstr ("percentage") ∧
      (analyzeEscalation (.jnum R) (.jnum S) (.jnum V) (.jstr T)).suggestedValue =
        .jnum (0.05 : ℚ) ∧
      effValue (applyEscalationCorrection metrics) ("rent_escalations") = .jnum (0.05 : ℚ) ∧
      effValue (applyEscalationCorrection metrics) ("escalation_type") = .jstr ("percentage"))
  ∧ (¬ ((0.025 : ℚ) ≤ V / (R * 12 / S) ∧ V / (R * 12 / S) ≤ (0.035 : ℚ)) →
     ¬ ((0.045 : ℚ) ≤ V / (R * 12 / S) ∧ V / (R * 12 / S) ≤ (0.055 : ℚ)) →
      (analyzeEscalation (.jnum R) (.jnum S) (.jnum V) (.jstr T)).confidence = .medium ∧
      applyEscalationCorrection metrics = metrics) := by
  have hA0 : R * 12 / S ≠ 0 := div_ne_zero (mul_ne_zero hR0 (by norm_num)) hS0
  have hge : oGe (toNumber (JVal.jnum V)) (0.5 : ℚ) = true := by
    simp [toNumber, oGe]
    exact hhalf
  have himp : qdiv? (toNumber (JVal.jnum V))
      (qdiv? (qmul? (toNumber (JVal.jnum R)) (some 12)) (toNumber (JVal.jnum S))) =
      some (V / (R * 12 / S)) := by
    simp [toNumber, qmul?, qdiv?, hS0, hA0]
  have htr : ¬ (¬ (JVal.jnum R).truthy ∨ ¬ (JVal.jnum S).truthy ∨
      ¬ (JVal.jnum V).truthy ∨ ¬ (JVal.jstr T).truthy) := by
    simp [JVal.truthy, hR0, hS0, hV0, hT0]
  refine ⟨?_, ?_, ?_⟩
  · rintro ⟨hlo, hhi⟩
    have hwithin : oWithin (qdiv? (toNumber (JVal.jnum V))
        (qdiv? (qmul? (toNumber (JVal.jnum R)) (some 12)) (toNumber (JVal.jnum S))))
        (0.025 : ℚ) (0.035 : ℚ) = true := by
      rw [himp]
      simp [oWithin]
      exact ⟨hlo, hhi⟩
    have hana : analyzeEscalation (.jnum R) (.jnum S) (.jnum V) (.jstr T) =
        ⟨.jstr ("percentage"), .jnum (0.03 : ℚ), .high,
         jvalToString (JVal.jnum V) ++ "/RSF increase is about a 3 percent annual escalation"⟩ := by
      unfold analyzeEscalation
      rw [if_pos hge, if_pos hwithin]
    have hVne : ¬ JVal.strictEq (JVal.jnum (0.03 : ℚ)) (JVal.jnum V) = true := by
      simp [JVal.strictEq]
      intro he
      rw [← he] at hhalf
      norm_num at hhalf
    have happly : applyEscalationCorrection metrics =
        metrics.map (escUpdate (analyzeEscalation (.jnum R) (.jnum S) (.jnum V) (.jstr T))
          (.jstr T)) := by
      unfold applyEscalationCorrection
      dsimp only
      rw [hR, hS, hV, hT]
      rw [if_neg htr]
      rw [if_pos (by rw [hana]; exact ⟨rfl, Or.inr hVne⟩)]
    obtain ⟨mesc, hfesc, hmesc⟩ := find?_of_effValue (by rw [hV]; intro h; cases h)
    obtain ⟨mty, hfty, hmty⟩ := find?_of_effValue (by rw [hT]; intro h; cases h)
    refine ⟨by rw [hana], by rw [hana], by rw [hana], ?_, ?_, ?_, ?_⟩
    · rw [happly, effValue_map_escUpdate, hfesc]
      simp only [escUpdate, hmesc, hana]
      simp [JVal.isStr, JVal.nullish]
    · rw [happly, effValue_map_escUpdate, hfty]
      simp only [escUpdate, hmty, hana]
      simp [JVal.isStr, JVal.nullish]
    · intro m hm hesc
      rw [happly]
      have : escUpdate (analyzeEscalation (.jnum R) (.jnum S) (.jnum V) (.jstr T)) (.jstr T) m =
          { m with override := .jnum (0.03 : ℚ),
                   flags := m.flags ++ [.jstr (("Auto-corrected: ") ++
                     (analyzeEscalation (.jnum R) (.jnum S) (.jnum V) (.jstr T)).reasoning)] } := by
        unfold escUpdate
        rw [if_pos hesc, hana]
      rw [← this]
      exact List.mem_map_of_mem _ hm
    · intro m hm hesc hty
      rw [happly]
      have : escUpdate (analyzeEscalation (.jnum R) (.jnum S) (.jnum V) (.jstr T)) (.jstr T) m =
          m := by
        unfold escUpdate
        rw [if_neg (by simp [hesc]), if_neg (by simp [hty])]
      rw [← this]
      exact List.mem_map_of_mem _ hm
  · rintro ⟨hlo, hhi⟩
    have hnot1 : oWithin (qdiv? (toNumber (JVal.jnum V))
        (qdiv? (qmul? (toNumber (JVal.jnum R)) (some 12)) (toNumber (JVal.jnum S))))
        (0.025 : ℚ) (0.035 : ℚ) = false := by
      rw [himp]
      simp [oWithin]
      intro h1
      by_contra h2
      push_neg at h2
      have : (0.045 : ℚ) ≤ (0.035 : ℚ) := le_trans hlo h2
      norm_num at this
    have hwithin : oWithin (qdiv? (toNumber (JVal.jnum V))
        (qdiv? (qmul? (toNumber (JVal.jnum R)) (some 12)) (toNumber (JVal.jnum S))))
        (0.045 : ℚ) (0.055 : ℚ) = true := by
      rw [himp]
      simp [oWithin]
      exact ⟨hlo, hhi⟩
    have hana : analyzeEscalation (.jnum R) (.jnum S) (.jnum V) (.jstr T) =
        ⟨.jstr ("percentage"), .jnum (0.05 : ℚ), .high,
         jvalToString (JVal.jnum V) ++ "/RSF increase is about a 5 percent annual escalation"⟩ := by
      unfold analyzeEscalation
      rw [if_pos hge, if_neg (by rw [hnot1]; simp), if_pos hwithin]
    have hVne : ¬ JVal.strictEq (JVal.jnum (0.05 : ℚ)) (JVal.jnum V) = true := by
      simp [JVal.strictEq]
      intro he
      rw [← he] at hhalf
      norm_num at hhalf
    have happly : applyEscalationCorrection metrics =
        metrics.map (escUpdate (analyzeEscalation (.jnum R) (.jnum S) (.jnum V) (.jstr T))
          (.jstr T)) := by
      unfold applyEscalationCorrection
      dsimp only
      rw [hR, hS, hV, hT]
      rw [if_neg htr]
      rw [if_pos (by rw [hana]; exact ⟨rfl, Or.inr hVne⟩)]
    obtain ⟨mesc, hfesc, hmesc⟩ := find?_of_effValue (by rw [hV]; intro h; cases h)
    obtain ⟨mty, hfty, hmty⟩ := find?_of_effValue (by rw [hT]; intro h; cases h)
    refine ⟨by rw [hana], by rw [hana], by rw [hana], ?_, ?_⟩
    · rw [happly, effValue_map_escUpdate, hfesc]
      simp only [escUpdate, hmesc, hana]
      simp [JVal.isStr, JVal.nullish]
    · rw [happly, effValue_map_escUpdate, hfty]
      simp only [escUpdate, hmty, hana]
      simp [JVal.isStr, JVal.nullish]
  · intro h1 h2
    have hnot1 : oWithin (qdiv? (toNumber (JVal.jnum V))
        (qdiv? (qmul? (toNumber (JVal.jnum R)) (some 12)) (toNumber (JVal.jnum S))))
        (0.025 : ℚ) (0.035 : ℚ) = false := by
      rw [himp]
      exact decide_eq_false h1
    have hnot2 : oWithin (qdiv? (toNumber (JVal.jnum V))
        (qdiv? (qmul? (toNumber (JVal.jnum R)) (some 12)) (toNumber (JVal.jnum S))))
        (0.045 : ℚ) (0.055 : ℚ) = false := by
      rw [himp]
      exact decide_eq_false h2
    have hana : analyzeEscalation (.jnum R) (.jnum S) (.jnum V) (.jstr T) =
        ⟨.jstr ("fixed_dollar_per_rsf"), JVal.jnum V, .medium,
         jvalToString (JVal.jnum V) ++ "/RSF appears to be a fixed dollar escalation"⟩ := by
      unfold analyzeEscalation
      rw [if_pos hge, if_neg (by rw [hnot1]; simp), if_neg (by rw [hnot2]; simp)]
    refine ⟨by rw [hana], ?_⟩
    unfold applyEscalationCorrection
    dsimp only
    rw [hR, hS, hV, hT]
    rw [if_neg htr]
    rw [if_neg (by rw [hana]; simp)]

/-- The spec's escalation-correction example: rent 9500, area 3000,
escalation value 1.14 classified as fixed dollar per area. -/
def escExampleMetrics : List ExtractionMetric :=
  [⟨.jstr ("starting_rent_monthly"), .jnum 9500, .jnull, ("d"), .jstr (""), []⟩,
   ⟨.jstr ("suite_sf"), .jnum 3000, .jnull, ("d"), .jstr (""), []⟩,
   ⟨.jstr ("rent_escalations"), .jnum (1.14 : ℚ), .jnull, ("d"), .jstr (""), []⟩,
   ⟨.jstr ("escalation_type"), .jstr ("fixed_dollar_per_rsf"), .jnull, ("d"), .jstr (""), []⟩]

/-- Witness for C4: 9500 and 3000 give an annual rate of 38, 1.14 implies
3 percent, and the corrector overrides to percentage / 0.03. -/
theorem c4_escalation_correction_witness :
    effValue (applyEscalationCorrection escExampleMetrics) ("rent_escalations") =
      .jnum (0.03 : ℚ) ∧
    effValue (applyEscalationCorrection escExampleMetrics) ("escalation_type") =
      .jstr ("percentage") := by
  have h := c4_escalation_correction escExampleMetrics 9500 3000 (1.14 : ℚ)
    ("fixed_dollar_per_rsf") rfl rfl rfl rfl (by norm_num) (by norm_num) (by norm_num)
    (by decide) (by norm_num)
  have hb := h.1 (by constructor <;> norm_num)
  exact ⟨hb.2.2.2.1, hb.2.2.2.2.1⟩

/-! ## C5 -/

theorem JVal.ne_undef_of_truthy {v : JVal} (h : v.truthy = true) : v ≠ .jundefined := by
  intro he
  rw [he] at h
  simp [JVal.truthy] at h

theorem JVal.nullish_eq_false_of_truthy {v : JVal} (h : v.truthy = true) :
    v.nullish = false := by
  cases v <;> simp_all [JVal.truthy, JVal.nullish]

theorem JVal.strictEq_self_of_toNumber {v : JVal} {q : ℚ} (h : toNumber v = some q) :
    v.strictEq v = true := by
  cases v <;> simp_all [toNumber, JVal.strictEq]

theorem effValue_map_escUpdate_other (a : EscalationAnalysis) (t : JVal)
    (l : List ExtractionMetric) (name : String)
    (h1 : name ≠ "rent_escalations") (h2 : name ≠ "escalation_type") :
    effValue (l.map (escUpdate a t)) name = effValue l name := by
  rw [effValue_map_escUpdate]
  unfold effValue
  cases hf : l.find? (fun m => m.metric.isStr name) with
  | none => rfl
  | some m =>
    have hp := List.find?_some hf
    have hm := (JVal.isStr_iff _ _).mp hp
    have hid : escUpdate a t m = m := by
      unfold escUpdate
      rw [if_neg (by rw [hm]; simp [JVal.isStr]; exact h1),
          if_neg (by rw [hm]; simp [JVal.isStr]; exact h2)]
    dsimp only
    rw [hid]

/-- A value below both thresholds is (re-)classified as a percentage at
high confidence with no value change, whatever the other inputs. -/
theorem analyzeEscalation_percent_like (sr sf t w : JVal)
    (hge : oGe (toNumber w) (0.5 : ℚ) = false) (hlt : oLt (toNumber w) (0.20 : ℚ) = true) :
    analyzeEscalation sr sf w t =
      ⟨.jstr ("percentage"), w, .high,
       jvalToString w ++ " is a valid percentage escalation"⟩ := by
  unfold analyzeEscalation
  rw [if_neg (by rw [hge]; simp), if_pos hlt]

/-- When the guard passed and the analysis reached high confidence, the
suggested type is the percentage string and the suggested value is either
the current value (already percentage-like) or a canonical 0.03 / 0.05 —
in every case a value that re-analysis classifies as percentage-like. -/
theorem analyzeEscalation_high (sr sf v t : JVal)
    (h : (analyzeEscalation sr sf v t).confidence = .high) :
    (analyzeEscalation sr sf v t).suggestedType = .jstr ("percentage") ∧
    oGe (toNumber (analyzeEscalation sr sf v t).suggestedValue) (0.5 : ℚ) = false ∧
    oLt (toNumber (analyzeEscalation sr sf v t).suggestedValue) (0.20 : ℚ) = true ∧
    JVal.strictEq (analyzeEscalation sr sf v t).suggestedValue
      (analyzeEscalation sr sf v t).suggestedValue = true ∧
    ((analyzeEscalation sr sf v t).suggestedValue = v ∨
      (analyzeEscalation sr sf v t).suggestedValue = .jnum (0.03 : ℚ) ∨
      (analyzeEscalation sr sf v t).suggestedValue = .jnum (0.05 : ℚ)) := by
  unfold analyzeEscalation at h ⊢
  by_cases hge : oGe (toNumber v) (0.5 : ℚ) = true
  · rw [if_pos hge] at h ⊢
    by_cases hw1 : oWithin (qdiv? (toNumber v)
        (qdiv? (qmul? (toNumber sr) (some 12)) (toNumber sf))) (0.025 : ℚ) (0.035 : ℚ) = true
    · rw [if_pos hw1] at h ⊢
      refine ⟨rfl, ?_, ?_, by simp [JVal.strictEq], Or.inr (Or.inl rfl)⟩
      · simp [toNumber, oGe]
        norm_num
      · simp [toNumber, oLt]
        norm_num
    · rw [if_neg hw1] at h ⊢
      by_cases hw2 : oWithin (qdiv? (toNumber v)
          (qdiv? (qmul? (toNumber sr) (some 12)) (toNumber sf))) (0.045 : ℚ) (0.055 : ℚ) = true
      · rw [if_pos hw2] at h ⊢
        refine ⟨rfl, ?_, ?_, by simp [JVal.strictEq], Or.inr (Or.inr rfl)⟩
        · simp [toNumber, oGe]
          norm_num
        · simp [toNumber, oLt]
          norm_num
      · rw [if_neg hw2] at h
        simp at h
  · rw [if_neg hge] at h ⊢
    by_cases hlt : oLt (toNumber v) (0.20 : ℚ) = true
    · rw [if_pos hlt] at h ⊢
      have hq : ∃ q : ℚ, toNumber v = some q := by
        cases hn : toNumber v with
        | none => rw [hn] at hlt; simp [oLt] at hlt
        | some q => exact ⟨q, rfl⟩
      obtain ⟨q, hq⟩ := hq
      exact ⟨rfl, Bool.eq_false_iff.mpr hge, hlt, JVal.strictEq_self_of_toNumber hq, Or.inl rfl⟩
    · rw [if_neg hlt] at h
      simp at h

/-- C5: the escalation corrector is idempotent — applying it to its own
output changes nothing, record for record; in particular a value already at
0.03 with percentage type receives no further override and no further
note. -/
theorem c5_escalation_correction_idempotent (metrics : List ExtractionMetric) :
    applyEscalationCorrection (applyEscalationCorrection metrics) =
      applyEscalationCorrection metrics := by
  by_cases hG : ¬ (effValue metrics ("starting_rent_monthly")).truthy ∨
      ¬ (effValue metrics ("suite_sf")).truthy ∨
      ¬ (effValue metrics ("rent_escalations")).truthy ∨
      ¬ (effValue metrics ("escalation_type")).truthy
  · have h1 : applyEscalationCorrection metrics = metrics := by
      unfold applyEscalationCorrection
      dsimp only
      rw [if_pos hG]
    rw [h1]
    exact h1
  · push_neg at hG
    obtain ⟨hsr, hsf, hv, ht⟩ := hG
    by_cases hC : (analyzeEscalation (effValue metrics ("starting_rent_monthly"))
        (effValue metrics ("suite_sf")) (effValue metrics ("rent_escalations"))
        (effValue metrics ("escalation_type"))).confidence = .high ∧
        (¬ JVal.strictEq (analyzeEscalation (effValue metrics ("starting_rent_monthly"))
            (effValue metrics ("suite_sf")) (effValue metrics ("rent_escalations"))
            (effValue metrics ("escalation_type"))).suggestedType
            (effValue metrics ("escalation_type")) ∨
         ¬ JVal.strictEq (analyzeEscalation (effValue metrics ("starting_rent_monthly"))
            (effValue metrics ("suite_sf")) (effValue metrics ("rent_escalations"))
            (effValue metrics ("escalation_type"))).suggestedValue
            (effValue metrics ("rent_escalations")))
    · -- the corrector fires: show the second pass leaves the output alone
      have h1 : applyEscalationCorrection metrics =
          metrics.map (escUpdate (analyzeEscalation (effValue metrics ("starting_rent_monthly"))
            (effValue metrics ("suite_sf")) (effValue metrics ("rent_escalations"))
            (effValue metrics ("escalation_type"))) (effValue metrics ("escalation_type"))) := by
        unfold applyEscalationCorrection
        dsimp only
        rw [if_neg (by push_neg; exact ⟨hsr, hsf, hv, ht⟩), if_pos hC]
      have hch := analyzeEscalation_high _ _ _ _ hC.1
      obtain ⟨hty, hge', hlt', hse', hvcases⟩ := hch
      have hvtr : (analyzeEscalation (effValue metrics ("starting_rent_monthly"))
          (effValue metrics ("suite_sf")) (effValue metrics ("rent_escalations"))
          (effValue metrics ("escalation_type"))).suggestedValue.truthy = true := by
        rcases hvcases with he | he | he <;> rw [he]
        · exact hv
        · simp [JVal.truthy]
          norm_num
        · simp [JVal.truthy]
          norm_num
      obtain ⟨mesc, hfesc, hmesc⟩ :=
        find?_of_effValue (JVal.ne_undef_of_truthy hv)
      obtain ⟨mty, hfty, hmty⟩ :=
        find?_of_effValue (JVal.ne_undef_of_truthy ht)
      have heffesc : effValue (metrics.map
          (escUpdate (analyzeEscalation (effValue metrics ("starting_rent_monthly"))
            (effValue metrics ("suite_sf")) (effValue metrics ("rent_escalations"))
            (effValue metrics ("escalation_type"))) (effValue metrics ("escalation_type"))))
          ("rent_escalations") =
          (analyzeEscalation (effValue metrics ("starting_rent_monthly"))
            (effValue metrics ("suite_sf")) (effValue metrics ("rent_escalations"))
            (effValue metrics ("escalation_type"))).suggestedValue := by
        rw [effValue_map_escUpdate, hfesc]
        simp [escUpdate, hmesc, JVal.isStr, JVal.nullish_eq_false_of_truthy hvtr]
      have hefftype : effValue (metrics.map
          (escUpdate (analyzeEscalation (effValue metrics ("starting_rent_monthly"))
            (effValue metrics ("suite_sf")) (effValue metrics ("rent_escalations"))
            (effValue metrics ("escalation_type"))) (effValue metrics ("escalation_type"))))
          ("escalation_type") =
          (analyzeEscalation (effValue metrics ("starting_rent_monthly"))
            (effValue metrics ("suite_sf")) (effValue metrics ("rent_escalations"))
            (effValue metrics ("escalation_type"))).suggestedType := by
        rw [effValue_map_escUpdate, hfty]
        simp [escUpdate, hmty, JVal.isStr, hty, JVal.nullish]
      have h2 : applyEscalationCorrection (metrics.map
          (escUpdate (analyzeEscalation (effValue metrics ("starting_rent_monthly"))
            (effValue metrics ("suite_sf")) (effValue metrics ("rent_escalations"))
            (effValue metrics ("escalation_type"))) (effValue metrics ("escalation_type")))) =
          metrics.map (escUpdate (analyzeEscalation (effValue metrics ("starting_rent_monthly"))
            (effValue metrics ("suite_sf")) (effValue metrics ("rent_escalations"))
            (effValue metrics ("escalation_type"))) (effValue metrics ("escalation_type"))) := by
        unfold applyEscalationCorrection
        dsimp only
        rw [effValue_map_escUpdate_other _ _ _ ("starting_rent_monthly") (by decide) (by decide),
            effValue_map_escUpdate_other _ _ _ ("suite_sf") (by decide) (by decide),
            heffesc, hefftype, hty]
        rw [if_neg (by push_neg
                       exact ⟨hsr, hsf, hvtr, by simp [JVal.truthy]⟩)]
        rw [analyzeEscalation_percent_like _ _ _ _ hge' hlt']
        rw [if_neg (by rw [hse']; simp [JVal.strictEq])]
      rw [h1]
      exact h2
    · have h1 : applyEscalationCorrection metrics = metrics := by
        unfold applyEscalationCorrection
        dsimp only
        rw [if_neg (by push_neg; exact ⟨hsr, hsf, hv, ht⟩), if_neg hC]
      rw [h1]
      exact h1

/-! ## C2 -/

/-- A well-formed response carrying the same name twice: the parse keeps
both records and then appends the 26 placeholders — 28 records in all. -/
def duplicateNameResponse : String :=
  "[\x7b\"metric\": \"property\", \"value\": 1\x7d, \x7b\"metric\": \"property\", \"value\": 2\x7d]"

/-- C2 counterexample: on a well-formed response with a duplicated name the
parse returns 28 records — two of them named `property` — with no parse
errors: nothing is ever deduplicated or dropped, so "exactly 27 records,
no duplicates" fails. -/
theorem c2_counterexample :
    (parseExtractionResponse duplicateNameResponse ("d")).1.length = 28 ∧
    (parseExtractionResponse duplicateNameResponse ("d")).1.countP
      (fun m => m.metric.isStr ("property")) = 2 ∧
    jsonParseErrorMsg ∉ (parseExtractionResponse duplicateNameResponse ("d")).2 := by
  refine ⟨by with_unfolding_all rfl, by with_unfolding_all rfl, by with_unfolding_all decide⟩

/-- C2 (amended): the returned metric list always covers the fixed 27-name
schema, but extras and duplicates are preserved (the parse never removes or
dedupes records, so the list can exceed 27); when the structured parse
succeeds with records whose names cover the schema and exactly 27 records
are present, the result is exactly those 27 converted records, with no
missing-field placeholders and no error strings. -/
theorem c2_amended_schema (s src : String) (rs : List JVal)
    (h : structuredRawMetrics s.toList = some rs)
    (hcov : expectedFields.all (fun f =>
      rs.any (fun r => ((jvalField r ("metric")).getD .jundefined).isStr f)) = true)
    (hlen : rs.length = 27) :
    (parseExtractionResponse s src).1 = rs.map (rawToMetric src) ∧
    (parseExtractionResponse s src).1.length = 27 ∧
    (parseExtractionResponse s src).2 = [] := by
  have hp : phase1 s.toList src = (rs.map (rawToMetric src), []) := by
    unfold phase1
    rw [h]
  have hany : ∀ f ∈ expectedFields,
      ((rs.map (rawToMetric src)).map ExtractionMetric.metric).any
        (fun v => v.isStr f) = true := by
    intro f hf
    rw [List.all_eq_true] at hcov
    have h2 := hcov f hf
    rw [List.map_map, List.any_map]
    simpa [Function.comp, rawToMetric] using h2
  have hmiss : (expectedFields.filter (fun f =>
      ¬ ((rs.map (rawToMetric src)).map ExtractionMetric.metric).any
        (fun v => v.isStr f))) = [] := by
    rw [List.filter_eq_nil_iff]
    intro f hf
    simp only [decide_eq_true_eq, not_not]
    exact hany f hf
  unfold parseExtractionResponse
  rw [hp]
  unfold completeSchema
  dsimp only
  rw [hmiss]
  rw [if_pos (show ([] : List String).isEmpty = true from rfl)]
  refine ⟨rfl, ?_, rfl⟩
  dsimp only
  rw [List.length_map, hlen]

/-- The response carrying each of the 27 schema names exactly once. -/
def fullSchemaResponse : String :=
  "[" ++ String.intercalate (", ")
    (expectedFields.map (fun f => "\x7b\"metric\": \"" ++ f ++ "\"\x7d")) ++ "]"

set_option maxRecDepth 4000 in
/-- Witness for C2 amended at a concrete full-schema response. -/
theorem c2_amended_schema_witness :
    (parseExtractionResponse fullSchemaResponse ("d")).1.length = 27 ∧
    (parseExtractionResponse fullSchemaResponse ("d")).2 = [] := by
  have h := c2_amended_schema fullSchemaResponse ("d")
    ((structuredRawMetrics fullSchemaResponse.toList).getD [])
    (by with_unfolding_all rfl) (by with_unfolding_all rfl) (by with_unfolding_all rfl)
  exact ⟨h.2.1, h.2.2⟩

/-! ## C6 -/

/-- The model's malformed content whose last recovered value abuts the
closing fence when wrapped. -/
def fallbackContent : String := "x \"metric\": \"a\" \"value\": 1"

def fallbackWrapped : String := "```json\n" ++ fallbackContent ++ "```"

/-- C6 counterexample: with malformed JSON the fallback regex scans the
original text, fences included — wrapped, the recovered value is the string
`1`​`​`​`​` (fence glued on), unwrapped it is the number 1, so the metric lists
differ. -/
theorem c6_counterexample :
    (parseExtractionResponse fallbackWrapped ("d")).1 ≠
      (parseExtractionResponse fallbackContent ("d")).1 := by
  intro hEq
  have h1 := congrArg (fun l => l.head?.map (fun m => toNumber m.value)) hEq
  have h2 : some (none : Option ℚ) = some (some (1 : ℚ)) := by
    calc some (none : Option ℚ)
        = (parseExtractionResponse fallbackWrapped ("d")).1.head?.map
            (fun m => toNumber m.value) := by with_unfolding_all rfl
      _ = (parseExtractionResponse fallbackContent ("d")).1.head?.map
            (fun m => toNumber m.value) := h1
      _ = some (some (1 : ℚ)) := by with_unfolding_all rfl
  simp at h2

theorem splitAtSubAux_fence_none {l : List Char} (acc : List Char) (h : btick ∉ l) :
    splitAtSubAux (List.replicate 3 btick) acc l = none := by
  induction l generalizing acc with
  | nil => rfl
  | cons c ls ih =>
    have hc : c ≠ btick := fun he => h (by rw [he]; exact List.mem_cons_self _ _)
    unfold splitAtSubAux
    rw [if_neg (by
      simp [List.replicate, List.isPrefixOf]
      intro he
      exact absurd he.symm hc)]
    exact ih (c :: acc) (fun hm => h (List.mem_cons_of_mem _ hm))

theorem splitAtSub_fence_none {l : List Char} (h : btick ∉ l) :
    splitAtSub (List.replicate 3 btick) l = none :=
  splitAtSubAux_fence_none [] h

theorem splitAtSubAux_fence_append {l r : List Char} (acc : List Char) (h : btick ∉ l) :
    splitAtSubAux (List.replicate 3 btick) acc (l ++ (List.replicate 3 btick ++ r)) =
      some (acc.reverse ++ l, r) := by
  induction l generalizing acc with
  | nil =>
    simp only [List.nil_append]
    have hrep : List.replicate 3 btick = btick :: btick :: btick :: [] := rfl
    rw [hrep]
    simp only [List.cons_append, List.nil_append]
    unfold splitAtSubAux
    rw [if_pos (by simp [List.isPrefixOf])]
    simp [hrep, List.drop]
  | cons c ls ih =>
    have hc : c ≠ btick := fun he => h (by rw [he]; exact List.mem_cons_self _ _)
    simp only [List.cons_append]
    unfold splitAtSubAux
    rw [if_neg (by
      simp [List.replicate, List.isPrefixOf]
      intro he
      exact absurd he.symm hc)]
    rw [ih (c :: acc) (fun hm => h (List.mem_cons_of_mem _ hm))]
    simp

theorem splitAtSub_fence_append {l r : List Char} (h : btick ∉ l) :
    splitAtSub (List.replicate 3 btick) (l ++ (List.replicate 3 btick ++ r)) = some (l, r) := by
  rw [splitAtSub, splitAtSubAux_fence_append [] h]
  rfl

/-- Stripping the fence from `​`​`​`json\n <content> `​`​`​` recovers the content
(up to leading whitespace), provided the content is backtick-free. -/
theorem stripFence_wrapJson {c : List Char} (h : btick ∉ c) :
    stripFence (("```json\n").toList ++ (c ++ ("```").toList)) = some (skipWsL c) := by
  have h8 : ("```json\n").toList =
      List.replicate 3 btick ++ ('j' :: 's' :: 'o' :: 'n' :: Char.ofNat 10 :: []) := by
    with_unfolding_all rfl
  have h3 : ("```").toList = List.replicate 3 btick := by
    with_unfolding_all rfl
  unfold stripFence
  dsimp only
  rw [h8, h3, List.append_assoc]
  have h0 : splitAtSub (List.replicate 3 btick)
      (List.replicate 3 btick ++
        (('j' :: 's' :: 'o' :: 'n' :: Char.ofNat 10 :: []) ++ (c ++ List.replicate 3 btick))) =
      some ([], ('j' :: 's' :: 'o' :: 'n' :: Char.ofNat 10 :: []) ++
        (c ++ List.replicate 3 btick)) := by
    simpa using splitAtSub_fence_append (l := [])
      (r := ('j' :: 's' :: 'o' :: 'n' :: Char.ofNat 10 :: []) ++ (c ++ List.replicate 3 btick))
      (by simp)
  rw [h0]
  dsimp only
  rw [if_pos (by simp [List.isPrefixOf])]
  have hdrop : (('j' :: 's' :: 'o' :: 'n' :: Char.ofNat 10 :: []) ++
      (c ++ List.replicate 3 btick)).drop 4 =
      Char.ofNat 10 :: (c ++ List.replicate 3 btick) := by
    simp [List.drop]
  rw [hdrop]
  have hws : skipWsL (Char.ofNat 10 :: (c ++ List.replicate 3 btick)) =
      skipWsL (c ++ List.replicate 3 btick) := by
    unfold skipWsL
    rw [List.dropWhile_cons]
    rw [if_pos (by with_unfolding_all decide)]
  rw [hws]
  unfold skipWsL
  rw [List.dropWhile_append]
  by_cases hemp : (c.dropWhile isWsChar).isEmpty = true
  · rw [if_pos hemp]
    have hfd : (List.replicate 3 btick).dropWhile isWsChar = List.replicate 3 btick := by
      with_unfolding_all rfl
    rw [hfd]
    have hfsplit : splitAtSub (List.replicate 3 btick) (List.replicate 3 btick) =
        some ([], []) := by
      have := splitAtSub_fence_append (l := []) (r := [])
        (by simp)
      simpa using this
    rw [hfsplit]
    rw [List.isEmpty_iff] at hemp
    rw [hemp]
  · rw [if_neg hemp]
    have hsub : btick ∉ c.dropWhile isWsChar := by
      intro hm
      exact h ((List.dropWhile_sublist isWsChar).subset hm)
    have := splitAtSub_fence_append (l := c.dropWhile isWsChar) (r := []) hsub
    rw [List.append_nil] at this
    rw [this]

/-- C6 (amended): for a backtick-free content whose structured JSON parse
succeeds, wrapping it in a ```json fenced block changes nothing — the parse
strips the fence and reaches the same metric and error lists; the
equivalence does not extend to the fallback path, which scans the original
fenced text (see the counterexample). -/
theorem c6_amended_fence_invariance (c src : String) (rs : List JVal)
    (hb : btick ∉ c.toList)
    (hs : structuredRawMetrics c.toList = some rs) :
    parseExtractionResponse ("```json\n" ++ c ++ "```") src =
      parseExtractionResponse c src := by
  have htl : ("```json\n" ++ c ++ "```").toList =
      ("```json\n").toList ++ (c.toList ++ ("```").toList) := by
    rw [show (("```json\n" ++ c) ++ "```").toList =
        ("```json\n" ++ c).toList ++ ("```").toList from rfl,
      show ("```json\n" ++ c).toList = ("```json\n").toList ++ c.toList from rfl,
      List.append_assoc]
  have hstrip : jsonStrOf (("```json\n" ++ c ++ "```").toList) = skipWsL c.toList := by
    unfold jsonStrOf
    rw [htl, stripFence_wrapJson hb]
    rfl
  have hplain : jsonStrOf c.toList = c.toList := by
    unfold jsonStrOf stripFence
    dsimp only
    rw [splitAtSub_fence_none hb]
    rfl
  have htrim : trimL (skipWsL c.toList) = trimL c.toList := by
    unfold trimL skipWsL
    rw [List.dropWhile_idempotent]
  have hsm : structuredRawMetrics (("```json\n" ++ c ++ "```").toList) = some rs := by
    rw [structuredRawMetrics, hstrip, htrim]
    rw [structuredRawMetrics, hplain] at hs
    exact hs
  rw [parseExtractionResponse, parseExtractionResponse, phase1, phase1, hsm, hs]

/-- Witness for C6 amended: wrapping the (backtick-free, well-formed)
content `[]` yields the same parse as the bare content. -/
theorem c6_amended_fence_invariance_witness :
    btick ∉ ("[]").toList ∧
    parseExtractionResponse ("```json\n" ++ "[]" ++ "```") ("d") =
      parseExtractionResponse ("[]") ("d") := by
  refine ⟨by with_unfolding_all decide, ?_⟩
  exact c6_amended_fence_invariance ("[]") ("d") []
    (by with_unfolding_all decide) (by with_unfolding_all rfl)

end NolaLease
